import Mathlib

/-!
Verification of the Linux text-edit monitor (`resources/linux-text-monitor.py`).

The program watches the keyboard-focused text element of a desktop session
through the AT-SPI accessibility bus and reports its value and subsequent
edits over a line-oriented stdout protocol.  We embed the program shallowly:

* text values are `List Char` (Python slices strings by code point, so a
  list of code points is the exact carrier);
* the output encoder `emit_text` is translated from `_emit_text`;
* the accessibility tree is a mutual inductive `Accessible`/`Kids`/`KidList` in
  which every external query carries its possible failure modes explicitly
  (a raised exception, a `None` child, a missing text interface);
* `find_focused` is translated from `_find_focused`, `search_apps` from the
  application loop in `main`, and `main_run` from the startup sequence of
  `main`, with the watch phase folded over a list of notification events;
* the base64 and UTF-8 encoders stand for the `base64`/`str.encode` library
  calls (external to the repository), written out from their standard
  definitions so that everything evaluates.
-/

def TIMEOUT_SECONDS : Nat := 30

def MAX_OUTPUT_CHARS : Nat := 10240

/-- A text value: the sequence of Unicode code points of a Python `str`. -/
abbrev Text := List Char

/-- `value[:MAX_OUTPUT_CHARS]` — Python slice keeps the first 10240 code points. -/
def truncate (value : Text) : Text :=
  value.take MAX_OUTPUT_CHARS

/-- `"\n" in t or "\r" in t` from `_emit_text`. -/
def hasNewline (t : Text) : Bool :=
  t.contains '\n' || t.contains '\r'

/-- UTF-8 encoding of one code point (the standard encoding used by
Python's `str.encode("utf-8")`, which is outside the repository). -/
def utf8Char (c : Char) : List Nat :=
  let n := c.toNat
  if n < 0x80 then [n]
  else if n < 0x800 then [0xC0 + n / 64, 0x80 + n % 64]
  else if n < 0x10000 then [0xE0 + n / 4096, 0x80 + (n / 64) % 64, 0x80 + n % 64]
  else [0xF0 + n / 262144, 0x80 + (n / 4096) % 64, 0x80 + (n / 64) % 64, 0x80 + n % 64]

/-- UTF-8 bytes of a text value. -/
def utf8Bytes (t : Text) : List Nat :=
  t.flatMap utf8Char

/-- The standard base64 alphabet. -/
def b64Alphabet : List Char :=
  "ABCDEFGHIJKLMNOPQRSTUVWXYZabcdefghijklmnopqrstuvwxyz0123456789+/".data

def b64Char (n : Nat) : Char :=
  b64Alphabet.getD n 'A'

/-- Standard base64 of a byte sequence (the `base64.b64encode` library call,
which is outside the repository), with `=` padding. -/
def b64encode : List Nat → List Char
  | [] => []
  | [b1] => [b64Char (b1 / 4), b64Char (b1 % 4 * 16), '=', '=']
  | [b1, b2] => [b64Char (b1 / 4), b64Char (b1 % 4 * 16 + b2 / 16), b64Char (b2 % 16 * 4), '=']
  | b1 :: b2 :: b3 :: rest =>
      b64Char (b1 / 4) :: b64Char (b1 % 4 * 16 + b2 / 16) ::
        b64Char (b2 % 16 * 4 + b3 / 64) :: b64Char (b3 % 64) :: b64encode rest

/-- `_emit_text(prefix, value)` — the single stdout line it prints
(without the terminating newline added by `print`). -/
def emit_text (tag : Text) (value : Text) : Text :=
  let truncated := truncate value
  if hasNewline truncated then
    tag ++ "_B64:".data ++ b64encode (utf8Bytes truncated)
  else
    tag ++ ":".data ++ truncated

/-- One watch-phase notification, as observed by `on_text_changed`:
`none` when the event source has no text interface or any query raised
(the handler returns silently), `some full` when the source's full text
was read successfully. -/
abbrev EventRead := Option Text

/-- `on_text_changed(event)` — given the current `last_value` and the
event's read outcome, returns the new `last_value` and the emitted lines. -/
def on_text_changed (last : Text) (read : EventRead) : Text × List Text :=
  match read with
  | none => (last, [])
  | some full =>
      let new_value := truncate full
      if new_value = last then (last, [])
      else (new_value, [emit_text "CHANGED".data new_value])

/-- Folding `on_text_changed` over a sequence of notifications: all lines
emitted during the watch phase. -/
def run_events (last : Text) : List EventRead → List Text
  | [] => []
  | e :: es =>
      let s := on_text_changed last e
      s.2 ++ run_events s.1 es

/-- Outcome of `focused.get_text_iface()` plus the initial read
(`get_character_count` / `get_text`): each constructor is one of the
concrete paths through lines 101-117 of the source. -/
inductive TextQuery : Type where
  /-- `get_text_iface()` raised. -/
  | raiseIface : TextQuery
  /-- `get_text_iface()` returned `None`. -/
  | noIface : TextQuery
  /-- the interface exists but `get_character_count` or `get_text` raised. -/
  | readFail : TextQuery
  /-- a successful read: the element's full text. -/
  | text : Text → TextQuery
deriving DecidableEq

mutual
/-- An accessibility-tree node together with the outcomes of every external
query the program can make on it.  The first field is `get_state_set()`
followed by `contains(FOCUSED)`: `none` when the query raises, `some b`
when it answers `b`.  The second field is the child enumeration, the third
the text-interface queries. -/
inductive Accessible : Type where
  | mk : Option Bool → Kids → TextQuery → Accessible

/-- Outcome of `get_child_count()`. -/
inductive Kids : Type where
  /-- `get_child_count()` raised. -/
  | fail : Kids
  /-- the enumeration `get_child_at_index(0), …, get_child_at_index(count-1)`. -/
  | list : KidList → Kids

/-- The per-index results of `get_child_at_index`. -/
inductive KidList : Type where
  | nil : KidList
  /-- `get_child_at_index(i)` raised; the remaining indices are kept for
  structure but the exception aborts the enclosing loop. -/
  | err : KidList → KidList
  /-- `get_child_at_index(i)` returned `None`. -/
  | null : KidList → KidList
  /-- a real child node. -/
  | kid : Accessible → KidList → KidList
end

/-- `state_set.contains(Atspi.StateType.FOCUSED)` answered true. -/
def isFocused : Accessible → Bool
  | .mk (some true) _ _ => true
  | _ => false

mutual
/-- `_find_focused(accessible)` — lines 40-55.  The whole body sits in one
`try`: a raised state query, a raised `get_child_count`, or a raised
`get_child_at_index` makes this call return `None`; a `None` child is
skipped; recursive calls never raise because they catch internally. -/
def find_focused : Accessible → Option Accessible
  | .mk none _ _ => none
  | .mk (some true) k t => some (.mk (some true) k t)
  | .mk (some false) .fail _ => none
  | .mk (some false) (.list l) _ => find_in_kids l

/-- The `for i in range(child_count)` loop of `_find_focused`. -/
def find_in_kids : KidList → Option Accessible
  | .nil => none
  | .err _ => none
  | .null rest => find_in_kids rest
  | .kid c rest =>
      match find_focused c with
      | some r => some r
      | none => find_in_kids rest
end

/-- The application loop of `main` (lines 85-94): iterate over the desktop's
children; an exception for one index `continue`s to the next, a `None`
application is skipped, and the first application whose `_find_focused`
succeeds wins. -/
def search_apps : KidList → Option Accessible
  | .nil => none
  | .err rest => search_apps rest
  | .null rest => search_apps rest
  | .kid a rest =>
      match find_focused a with
      | some r => some r
      | none => search_apps rest

mutual
/-- Every query in the subtree succeeds: no state query, child count or
child enumeration raises.  (`None` children are allowed — the source and
the spec both treat them as a normal skip, not an error.) -/
def accessibleOk : Accessible → Bool
  | .mk none _ _ => false
  | .mk (some _) k _ => kidsOk k

def kidsOk : Kids → Bool
  | .fail => false
  | .list l => kidListOk l

def kidListOk : KidList → Bool
  | .nil => true
  | .err _ => false
  | .null rest => kidListOk rest
  | .kid c rest => accessibleOk c && kidListOk rest
end

mutual
/-- Pre-order traversal of a subtree: the node itself first, then the
children left-to-right. -/
def preorder : Accessible → List Accessible
  | .mk st k t => .mk st k t :: kidsPreorder k

def kidsPreorder : Kids → List Accessible
  | .fail => []
  | .list l => kidListPreorder l

def kidListPreorder : KidList → List Accessible
  | .nil => []
  | .err _ => []
  | .null rest => kidListPreorder rest
  | .kid c rest => preorder c ++ kidListPreorder rest
end

mutual
/-- No node anywhere in the subtree has a state set containing FOCUSED
(nodes behind failing queries included). -/
def accessibleNoFocus : Accessible → Bool
  | .mk st k _ => !(st = some true : Bool) && kidsNoFocus k

def kidsNoFocus : Kids → Bool
  | .fail => true
  | .list l => kidListNoFocus l

def kidListNoFocus : KidList → Bool
  | .nil => true
  | .err rest => kidListNoFocus rest
  | .null rest => kidListNoFocus rest
  | .kid c rest => accessibleNoFocus c && kidListNoFocus rest
end

/-- The text-interface field of a node. -/
def textQueryOf : Accessible → TextQuery
  | .mk _ _ t => t

/-- The startup sequence plus watch phase of `main` (lines 74-162), as the
pair (all protocol lines printed, process exit status).  Inputs: whether
the `gi` import chain succeeded (`HAS_ATSPI`), the desktop's child
enumeration, and the notification events delivered while watching.
The stdin read (lines 69-72) consumes one informational line and affects
nothing.  After the run loop stops (timeout or signal) the process falls
off `main` with status 0 and prints nothing further. -/
def main_run (hasAtspi : Bool) (desktop : KidList) (events : List EventRead) :
    List Text × Nat :=
  if !hasAtspi then (["NO_ELEMENT".data], 1)
  else
    match search_apps desktop with
    | none => (["NO_ELEMENT".data], 1)
    | some focused =>
        match textQueryOf focused with
        | .raiseIface => (["NO_VALUE".data], 0)
        | .noIface => (["NO_VALUE".data], 0)
        | .readFail => (["NO_VALUE".data], 0)
        | .text full =>
            let initial_value := truncate full
            (emit_text "INITIAL_VALUE".data initial_value ::
               run_events initial_value events, 0)

/-- State of the GLib main loop.  Modelled from the spec: `GLib.MainLoop`
is external library code; §4.5/§5 specify that requesting termination is
cooperative and idempotent. -/
inductive LoopState : Type where
  | running : LoopState
  | quitted : LoopState
deriving DecidableEq

/-- `loop.quit()` — requests termination; a second request is a no-op. -/
def quitLoop : LoopState → LoopState := fun _ => .quitted

/-- State of the one-shot `threading.Timer`.  Modelled from the spec:
`threading.Timer` is external library code; §4.5 specifies `cancel` is a
no-op once the timer has fired. -/
inductive TimerState : Type where
  | pending : TimerState
  | fired : TimerState
  | cancelled : TimerState
deriving DecidableEq

/-- `timer.cancel()` — a no-op if the timer already fired. -/
def cancelTimer : TimerState → TimerState
  | .fired => .fired
  | _ => .cancelled

/-- A termination trigger delivered while the loop blocks. -/
inductive Trigger : Type where
  | timeout : Trigger
  | sigterm : Trigger
  | sigint : Trigger

/-- `timeout_handler()` — only quits the loop (lines 145-146). -/
def timeout_handler (l : LoopState) : LoopState := quitLoop l

/-- `sigterm_handler(signum, frame)` — only quits the loop (lines 152-153);
installed for both SIGTERM and SIGINT. -/
def sigterm_handler (l : LoopState) : LoopState := quitLoop l

/-- The stdout lines produced by a trigger's handler: none — the handlers
perform no I/O. -/
def triggerOutput : Trigger → List Text
  | .timeout => []
  | .sigterm => []
  | .sigint => []

/-- Deliver one trigger to the loop/timer pair: the timeout marks the timer
fired and runs `timeout_handler`; a signal runs `sigterm_handler`. -/
def deliverTrigger : LoopState × TimerState → Trigger → LoopState × TimerState
  | (l, _), .timeout => (timeout_handler l, .fired)
  | (l, t), .sigterm => (sigterm_handler l, t)
  | (l, t), .sigint => (sigterm_handler l, t)

/-- The shutdown tail of `main` (lines 157-162): the loop has stopped;
`timer.cancel()` runs and the process exits with status 0, printing
nothing. -/
def shutdown (t : TimerState) : TimerState × List Text × Nat :=
  (cancelTimer t, [], 0)

/-- The whole WATCHING phase: triggers are delivered one at a time until the
loop run returns, then the shutdown tail runs.  Returns the final timer
state, the lines printed by triggers and shutdown, and the exit status. -/
def watch_phase (triggers : List Trigger) : LoopState × TimerState × List Text × Nat :=
  let s := triggers.foldl deliverTrigger (.running, .pending)
  let sh := shutdown s.2
  (s.1, sh.1, triggers.flatMap triggerOutput ++ sh.2.1, sh.2.2)

theorem hasNewline_iff (t : Text) : hasNewline t = true ↔ ('\n' ∈ t ∨ '\r' ∈ t) := by
  simp [hasNewline]

/-- C1: `emit(p, v)` truncates `v` to its first 10240 characters; if the
truncated value contains a line feed or carriage return it emits the single
line `p ++ "_B64:" ++ base64(utf8(truncated))`, and otherwise the single
line `p ++ ":" ++ truncated` unchanged. -/
theorem emit_text_correct (p v : Text) :
    (('\n' ∈ v.take 10240 ∨ '\r' ∈ v.take 10240) →
      emit_text p v = p ++ "_B64:".data ++ b64encode (utf8Bytes (v.take 10240))) ∧
    ('\n' ∉ v.take 10240 → '\r' ∉ v.take 10240 →
      emit_text p v = p ++ ":".data ++ v.take 10240) := by
  have htr : truncate v = v.take 10240 := rfl
  constructor
  · intro h
    have hb : hasNewline (truncate v) = true := by
      rw [htr, hasNewline_iff]; exact h
    rw [htr] at hb
    simp [emit_text, hb, htr]
  · intro h1 h2
    have hb : hasNewline (truncate v) = false := by
      rw [Bool.eq_false_iff]
      intro hc
      rcases (hasNewline_iff _).mp hc with h | h
      · exact h1 (htr ▸ h)
      · exact h2 (htr ▸ h)
    rw [htr] at hb
    simp [emit_text, hb, htr]

theorem emit_text_correct_witness :
    emit_text "CHANGED".data "a\nb".data =
      "CHANGED".data ++ "_B64:".data ++ b64encode (utf8Bytes ("a\nb".data.take 10240)) ∧
    emit_text "CHANGED".data "ab".data = "CHANGED".data ++ ":".data ++ "ab".data.take 10240 :=
  ⟨(emit_text_correct "CHANGED".data "a\nb".data).1 (by decide),
   (emit_text_correct "CHANGED".data "ab".data).2 (by decide) (by decide)⟩

/-- C2: on a notification whose source exposes a text capability, the
handler reads the text truncated to 10240 characters and compares it to
`last_value`: when equal it emits nothing and keeps `last_value`; when
different it sets `last_value` to the new value and emits exactly one
CHANGED (or CHANGED_B64) line; two consecutive notifications yielding the
same resulting text produce at most one CHANGED line. -/
theorem on_text_changed_correct (last full f1 f2 : Text) :
    (truncate full = last → on_text_changed last (some full) = (last, [])) ∧
    (truncate full ≠ last →
      on_text_changed last (some full) =
        (truncate full, [emit_text "CHANGED".data (truncate full)])) ∧
    (truncate f1 = truncate f2 → (run_events last [some f1, some f2]).length ≤ 1) := by
  refine ⟨fun h => ?_, fun h => ?_, fun h => ?_⟩
  · simp [on_text_changed, h]
  · simp [on_text_changed, h]
  · by_cases h1 : truncate f1 = last
    · simp [run_events, on_text_changed, h1, h ▸ h1]
    · simp only [run_events, on_text_changed]
      rw [if_neg h1, if_pos (h.symm)]
      simp
theorem on_text_changed_correct_witness :
    on_text_changed "ab".data (some "ab".data) = ("ab".data, []) ∧
    on_text_changed "ab".data (some "cd".data) =
      (truncate "cd".data, [emit_text "CHANGED".data (truncate "cd".data)]) ∧
    (run_events "ab".data [some "cd".data, some "cd".data]).length ≤ 1 :=
  ⟨(on_text_changed_correct "ab".data "ab".data [] []).1 (by decide),
   ((on_text_changed_correct "ab".data "cd".data [] []).2).1 (by decide),
   ((on_text_changed_correct "ab".data "x".data "cd".data "cd".data).2).2 rfl⟩

/-- C10: change detection is blind beyond the truncation bound — two full
texts agreeing on their first 10240 characters make the handler behave
identically (same output and same resulting `last_value`); in particular a
current text agreeing with `last_value` on the first 10240 characters emits
no CHANGED line. -/
theorem on_text_changed_truncation_blind (last full f1 f2 : Text) :
    (truncate f1 = truncate f2 →
      on_text_changed last (some f1) = on_text_changed last (some f2)) ∧
    (truncate full = truncate last → last.length ≤ MAX_OUTPUT_CHARS →
      on_text_changed last (some full) = (last, [])) := by
  constructor
  · intro h
    simp [on_text_changed, h]
  · intro h hlen
    have hl : truncate last = last := List.take_of_length_le hlen
    simp [on_text_changed, h, hl]
theorem on_text_changed_truncation_blind_witness :
    on_text_changed "ab".data (some "cd".data) = on_text_changed "ab".data (some "cd".data) ∧
    on_text_changed "ab".data (some "ab".data) = ("ab".data, []) :=
  ⟨(on_text_changed_truncation_blind "ab".data [] "cd".data "cd".data).1 rfl,
   (on_text_changed_truncation_blind "ab".data "ab".data [] []).2 rfl (by decide)⟩

theorem truncate_truncate (v : Text) : truncate (truncate v) = truncate v := by
  simp [truncate, List.take_take]

/-- C7: an initial value without line feed or carriage return is emitted as
the line `INITIAL_VALUE:<v>` verbatim, and stripping the tag recovers
exactly `v`. -/
theorem initial_value_verbatim (d : KidList) (es : List EventRead) (f : Accessible)
    (full : Text) (h1 : search_apps d = some f) (h2 : textQueryOf f = .text full)
    (h3 : '\n' ∉ truncate full) (h4 : '\r' ∉ truncate full) :
    (main_run true d es).1.head? = some ("INITIAL_VALUE:".data ++ truncate full) ∧
    ("INITIAL_VALUE:".data ++ truncate full).drop "INITIAL_VALUE:".data.length =
      truncate full := by
  have hb : hasNewline (truncate full) = false := by
    rw [Bool.eq_false_iff]
    intro hc
    rcases (hasNewline_iff _).mp hc with h | h
    · exact h3 h
    · exact h4 h
  have he : emit_text "INITIAL_VALUE".data (truncate full) =
      "INITIAL_VALUE:".data ++ truncate full := by
    simp [emit_text, hb, truncate_truncate]
  constructor
  · simp [main_run, h1, h2, he]
  · exact List.drop_left _ _

theorem initial_value_verbatim_witness :
    (main_run true
        (.kid (.mk (some true) (.list .nil) (.text "hello".data)) .nil) []).1.head? =
      some ("INITIAL_VALUE:".data ++ truncate "hello".data) ∧
    ("INITIAL_VALUE:".data ++ truncate "hello".data).drop "INITIAL_VALUE:".data.length =
      truncate "hello".data :=
  initial_value_verbatim
    (.kid (.mk (some true) (.list .nil) (.text "hello".data)) .nil) []
    (.mk (some true) (.list .nil) (.text "hello".data)) "hello".data
    (by simp [search_apps, find_focused]) rfl (by decide) (by decide)

/-- C8: when the accessibility layer is unavailable at startup the program
immediately emits `NO_ELEMENT` and exits with a non-zero status, for every
possible desktop tree and event sequence — no traversal is attempted. -/
theorem no_atspi_no_element (d : KidList) (es : List EventRead) :
    main_run false d es = (["NO_ELEMENT".data], 1) ∧ (main_run false d es).2 ≠ 0 := by
  constructor <;> simp [main_run]

mutual
theorem find_focused_of_noFocus (a : Accessible) (h : accessibleNoFocus a = true) :
    find_focused a = none := by
  match a with
  | .mk none _ _ => simp [find_focused]
  | .mk (some true) k t => simp [accessibleNoFocus] at h
  | .mk (some false) .fail t => simp [find_focused]
  | .mk (some false) (.list l) t =>
      have hl : kidListNoFocus l = true := by
        simpa [accessibleNoFocus, kidsNoFocus] using h
      simpa [find_focused] using find_in_kids_of_noFocus l hl

theorem find_in_kids_of_noFocus (l : KidList) (h : kidListNoFocus l = true) :
    find_in_kids l = none := by
  match l with
  | .nil => simp [find_in_kids]
  | .err rest => simp [find_in_kids]
  | .null rest =>
      have hr : kidListNoFocus rest = true := by simpa [kidListNoFocus] using h
      simpa [find_in_kids] using find_in_kids_of_noFocus rest hr
  | .kid c rest =>
      have hc : accessibleNoFocus c = true := by
        have := h
        simp [kidListNoFocus] at this
        exact this.1
      have hr : kidListNoFocus rest = true := by
        have := h
        simp [kidListNoFocus] at this
        exact this.2
      have h1 := find_focused_of_noFocus c hc
      have h2 := find_in_kids_of_noFocus rest hr
      simp [find_in_kids, h1, h2]
end

theorem search_apps_of_noFocus (d : KidList) (h : kidListNoFocus d = true) :
    search_apps d = none := by
  match d with
  | .nil => simp [search_apps]
  | .err rest =>
      have hr : kidListNoFocus rest = true := by simpa [kidListNoFocus] using h
      simpa [search_apps] using search_apps_of_noFocus rest hr
  | .null rest =>
      have hr : kidListNoFocus rest = true := by simpa [kidListNoFocus] using h
      simpa [search_apps] using search_apps_of_noFocus rest hr
  | .kid a rest =>
      have ha : accessibleNoFocus a = true := by
        have := h
        simp [kidListNoFocus] at this
        exact this.1
      have hr : kidListNoFocus rest = true := by
        have := h
        simp [kidListNoFocus] at this
        exact this.2
      have h1 := find_focused_of_noFocus a ha
      have h2 := search_apps_of_noFocus rest hr
      simp [search_apps, h1, h2]

/-- C5: a tree with zero focused elements (the empty desktop included)
makes the watcher emit exactly the line `NO_ELEMENT` and exit with a
non-zero status, with no other protocol line. -/
theorem no_focus_no_element (d : KidList) (es : List EventRead)
    (h : kidListNoFocus d = true) :
    main_run true d es = (["NO_ELEMENT".data], 1) ∧ (main_run true d es).2 ≠ 0 := by
  have hs := search_apps_of_noFocus d h
  constructor <;> simp [main_run, hs]

theorem no_focus_no_element_witness :
    main_run true .nil [] = (["NO_ELEMENT".data], 1) ∧ (main_run true .nil []).2 ≠ 0 :=
  no_focus_no_element .nil [] rfl

/-- C6: a focused element without text capability — the interface query
raised, returned `None`, or the initial read raised — makes the watcher
emit exactly the line `NO_VALUE` and exit with status zero. -/
theorem no_text_capability_no_value (d : KidList) (es : List EventRead) (f : Accessible)
    (h1 : search_apps d = some f)
    (h2 : textQueryOf f = .raiseIface ∨ textQueryOf f = .noIface ∨
      textQueryOf f = .readFail) :
    main_run true d es = (["NO_VALUE".data], 0) := by
  rcases h2 with h2 | h2 | h2 <;> simp [main_run, h1, h2]

theorem no_text_capability_no_value_witness :
    main_run true (.kid (.mk (some true) (.list .nil) .noIface) .nil) [] =
      (["NO_VALUE".data], 0) :=
  no_text_capability_no_value
    (.kid (.mk (some true) (.list .nil) .noIface) .nil) []
    (.mk (some true) (.list .nil) .noIface)
    (by simp [search_apps, find_focused]) (Or.inr (Or.inl rfl))

mutual
theorem find_focused_eq_find? (a : Accessible) (h : accessibleOk a = true) :
    find_focused a = (preorder a).find? isFocused := by
  match a with
  | .mk none k t => simp [accessibleOk] at h
  | .mk (some true) k t =>
      rw [preorder]
      rw [List.find?_cons_of_pos _ (by simp [isFocused])]
      simp [find_focused]
  | .mk (some false) .fail t => simp [accessibleOk, kidsOk] at h
  | .mk (some false) (.list l) t =>
      have hl : kidListOk l = true := by simpa [accessibleOk, kidsOk] using h
      have ih := find_in_kids_eq_find? l hl
      rw [preorder]
      rw [List.find?_cons_of_neg _ (by simp [isFocused])]
      simpa [find_focused, kidsPreorder] using ih

theorem find_in_kids_eq_find? (l : KidList) (h : kidListOk l = true) :
    find_in_kids l = (kidListPreorder l).find? isFocused := by
  match l with
  | .nil => simp [find_in_kids, kidListPreorder]
  | .err rest => simp [kidListOk] at h
  | .null rest =>
      have hr : kidListOk rest = true := by simpa [kidListOk] using h
      simpa [find_in_kids, kidListPreorder] using find_in_kids_eq_find? rest hr
  | .kid c rest =>
      have hc : accessibleOk c = true := by
        have := h
        simp [kidListOk] at this
        exact this.1
      have hr : kidListOk rest = true := by
        have := h
        simp [kidListOk] at this
        exact this.2
      have ih1 := find_focused_eq_find? c hc
      have ih2 := find_in_kids_eq_find? rest hr
      rw [kidListPreorder, List.find?_append, ← ih1, ← ih2]
      cases hfc : find_focused c <;> simp [find_in_kids, hfc]
end

/-- C3: the search is a recursive pre-order depth-first search — on an
error-free tree it returns the first node in pre-order whose state set
contains FOCUSED, and `none` when no node is focused; top-level
applications are tried in order and the first application yielding a match
wins. -/
theorem find_focused_preorder_dfs (a : Accessible) (rest : KidList) (r : Accessible) :
    (accessibleOk a = true → find_focused a = (preorder a).find? isFocused) ∧
    (accessibleOk a = true → (∀ x ∈ preorder a, isFocused x = false) →
      find_focused a = none) ∧
    (find_focused a = some r → search_apps (.kid a rest) = some r) ∧
    (find_focused a = none → search_apps (.kid a rest) = search_apps rest) := by
  refine ⟨find_focused_eq_find? a, fun h hall => ?_, fun h => ?_, fun h => ?_⟩
  · rw [find_focused_eq_find? a h, List.find?_eq_none]
    intro x hx
    simp [hall x hx]
  · simp [search_apps, h]
  · simp [search_apps, h]

/-- A focused leaf used by concrete instantiations. -/
def exFocused : Accessible := .mk (some true) (.list .nil) .noIface

/-- An application whose second child slot holds `exFocused`, the first
being a `None` child. -/
def exApp : Accessible := .mk (some false) (.list (.null (.kid exFocused .nil))) .noIface

/-- An application with no children. -/
def exEmptyApp : Accessible := .mk (some false) (.list .nil) .noIface

theorem find_focused_preorder_dfs_witness :
    find_focused exApp = (preorder exApp).find? isFocused ∧
    find_focused exEmptyApp = none ∧
    search_apps (.kid exApp .nil) = some exFocused ∧
    search_apps (.kid exEmptyApp (.kid exApp .nil)) = search_apps (.kid exApp .nil) :=
  ⟨(find_focused_preorder_dfs exApp .nil exFocused).1
      (by simp [exApp, exFocused, accessibleOk, kidsOk, kidListOk]),
   (find_focused_preorder_dfs exEmptyApp .nil exFocused).2.1
      (by simp [exEmptyApp, accessibleOk, kidsOk, kidListOk])
      (by simp [exEmptyApp, preorder, kidsPreorder, kidListPreorder, isFocused]),
   (find_focused_preorder_dfs exApp .nil exFocused).2.2.1
      (by simp [exApp, exFocused, find_focused, find_in_kids]),
   (find_focused_preorder_dfs exEmptyApp (.kid exApp .nil) exFocused).2.2.2
      (by simp [exEmptyApp, find_focused, find_in_kids])⟩

/-- C4: an error while querying a node's state or children makes that
node's subtree yield no match while the search continues with its siblings;
a `None` child is skipped, not treated as an error; an exception in the
top-level application loop continues with the next application. -/
theorem error_isolation (k : Kids) (t : TextQuery) (bad : Accessible) (rest : KidList) :
    find_focused (.mk none k t) = none ∧
    find_focused (.mk (some false) .fail t) = none ∧
    (find_focused bad = none → find_in_kids (.kid bad rest) = find_in_kids rest) ∧
    find_in_kids (.null rest) = find_in_kids rest ∧
    search_apps (.err rest) = search_apps rest ∧
    search_apps (.null rest) = search_apps rest :=
  ⟨by simp [find_focused], by simp [find_focused],
   fun h => by simp [find_in_kids, h],
   by simp [find_in_kids], by simp [search_apps], by simp [search_apps]⟩

theorem error_isolation_witness :
    find_focused (.mk none (.list .nil) .noIface) = none ∧
    find_focused (.mk (some false) .fail .noIface) = none ∧
    find_in_kids (.kid (.mk none (.list .nil) .noIface) (.kid exFocused .nil)) =
      find_in_kids (.kid exFocused .nil) ∧
    find_in_kids (.null (.kid exFocused .nil)) = find_in_kids (.kid exFocused .nil) ∧
    search_apps (.err (.kid exApp .nil)) = search_apps (.kid exApp .nil) ∧
    search_apps (.null (.kid exApp .nil)) = search_apps (.kid exApp .nil) :=
  let e := error_isolation (.list .nil) .noIface
    (.mk none (.list .nil) .noIface) (.kid exFocused .nil)
  ⟨e.1, e.2.1, e.2.2.1 (by simp [find_focused]), e.2.2.2.1,
   (error_isolation (.list .nil) .noIface exFocused (.kid exApp .nil)).2.2.2.2.1,
   (error_isolation (.list .nil) .noIface exFocused (.kid exApp .nil)).2.2.2.2.2⟩

theorem deliverTrigger_quitted (s : LoopState × TimerState) (t : Trigger) :
    (deliverTrigger s t).1 = .quitted := by
  obtain ⟨l, tm⟩ := s
  cases t <;> rfl

theorem foldl_deliver_quitted (ts : List Trigger) (s : LoopState × TimerState)
    (h : s.1 = .quitted) : (ts.foldl deliverTrigger s).1 = .quitted := by
  induction ts generalizing s with
  | nil => simpa using h
  | cons t ts ih =>
      rw [List.foldl_cons]
      exact ih _ (deliverTrigger_quitted s t)

theorem triggers_silent (ts : List Trigger) : ts.flatMap triggerOutput = [] := by
  induction ts with
  | nil => rfl
  | cons t ts ih => cases t <;> simp [triggerOutput, ih]

/-- C9: whichever termination trigger occurs first (timer expiry, interrupt
or terminate signal), the loop ends in the quitted state, the process exits
with status zero and produces no further output; a termination request
after one has already been made is a no-op, and the shutdown path cancels
the timer — a no-op when it already fired, a real cancellation when it is
still pending. -/
theorem lifecycle_shutdown (trs : List Trigger) (s : LoopState) (h : trs ≠ []) :
    (watch_phase trs).1 = .quitted ∧
    (watch_phase trs).2.2.1 = [] ∧
    (watch_phase trs).2.2.2 = 0 ∧
    quitLoop (quitLoop s) = quitLoop s ∧
    cancelTimer .fired = .fired ∧
    cancelTimer .pending = .cancelled := by
  refine ⟨?_, ?_, ?_, rfl, rfl, rfl⟩
  · match trs with
    | [] => exact absurd rfl h
    | t :: ts =>
        simp only [watch_phase]
        rw [List.foldl_cons]
        exact foldl_deliver_quitted ts _ (deliverTrigger_quitted _ t)
  · simp [watch_phase, triggers_silent, shutdown]
  · simp [watch_phase, shutdown]

theorem lifecycle_shutdown_witness :
    (watch_phase [.sigterm]).1 = .quitted ∧
    (watch_phase [.sigterm]).2.2.1 = [] ∧
    (watch_phase [.sigterm]).2.2.2 = 0 ∧
    quitLoop (quitLoop .running) = quitLoop .running ∧
    cancelTimer .fired = .fired ∧
    cancelTimer .pending = .cancelled :=
  lifecycle_shutdown [.sigterm] .running (by simp)
